import Mathlib

/-
Verification of the Magnitude self-improvement agent core against its
natural-language specification.

The JavaScript sources are shallowly embedded as Lean definitions:

* timestamps (JS `Date` values, `Date.now()`, ISO strings) are modelled as
  natural numbers counting milliseconds since the epoch, with the calendar
  read off by integer division (UTC-style, no DST);
* fallible or dynamically-typed JS computations are modelled with
  `Except String` (the string is the thrown error's message) or explicit
  JS-value sums where the dynamic type of a value matters;
* ambient effects (the `uuidv4()` draw, `Date.now()`, LLM collaborator
  results, filesystem availability) are passed as explicit parameters, as
  usual for shallow embeddings of effectful code;
* per-statement mutation is modelled by explicit state passing; where a JS
  `try` block mutates state before throwing, the embedding threads the
  partially-mutated state into the `catch` handler, matching JS semantics.
-/

namespace Magnitude

/-- Lowercasing of a string, modelling JS `String.prototype.toLowerCase`
(per character, which agrees with JS on ASCII data). -/
def jsToLower (s : String) : String :=
  ⟨s.data.map Char.toLower⟩

/-- Check whether `pat` occurs at the start of `l`. Helper for `jsIncludes`. -/
def startsWithList : List Char → List Char → Bool
  | [], _ => true
  | _ :: _, [] => false
  | p :: ps, c :: cs => p == c && startsWithList ps cs

/-- Check whether `pat` occurs somewhere inside `l`. Helper for `jsIncludes`. -/
def includesList (pat : List Char) : List Char → Bool
  | [] => startsWithList pat []
  | c :: cs => startsWithList pat (c :: cs) || includesList pat cs

/-- Substring containment, modelling JS `String.prototype.includes`. -/
def jsIncludes (s pat : String) : Bool :=
  includesList pat.data s.data

/-! ## Self-modification system (src/lib/self-modify.js)

A failure descriptor as passed to `SelfModificationSystem`: a task label and
an optional error text (`failure.error` may be absent, hence `Option`). -/

structure Failure where
  task : String
  error : Option String
  deriving DecidableEq, Repr

/-- Embedding of `categorizeFailure` (src/lib/self-modify.js lines 46-57):
an ordered keyword check over `failure.error?.toLowerCase() || ''`,
first match wins. -/
def categorizeFailure (failure : Failure) : String :=
  let error := jsToLower (failure.error.getD "")
  if jsIncludes error "timeout" then "timeout"
  else if jsIncludes error "syntax" then "syntax_error"
  else if jsIncludes error "import" then "import_error"
  else if jsIncludes error "api" || jsIncludes error "key" then "api_error"
  else if jsIncludes error "memory" then "resource_error"
  else if jsIncludes error "browser" then "browser_error"
  else "unknown"

/-- Embedding of `canSelfModify` (src/lib/self-modify.js lines 59-62):
membership of the categorized failure in the fixable allow-list. -/
def canSelfModify (failure : Failure) : Bool :=
  let fixable := ["timeout", "syntax_error", "import_error", "browser_error"]
  fixable.contains (categorizeFailure failure)

/-- A proposed change, as produced by the LLM collaborator and consumed by
`applyModifications` (fields `file`, `change`, `reason`). -/
structure Change where
  file : String
  change : String
  reason : String
  deriving DecidableEq, Repr

/-- Entries pushed onto `this.modificationLog`: per-change records pushed by
`applyModifications`, and the end-of-cycle improvement record pushed by
`improve` (a heterogeneous JS array, modelled as a sum). -/
inductive LogEntry where
  | changeApplied (file change reason : String) (timestamp : Nat)
  | improvementRecord (failure : Failure) (timestamp : Nat)
  deriving DecidableEq, Repr

/-- Result record for one change inside `applyModifications`. -/
structure ChangeResult where
  file : String
  success : Bool
  error : Option String
  deriving DecidableEq, Repr

/-- Result of `testModifications`. -/
structure TestResult where
  success : Bool
  error : Option String
  deriving DecidableEq, Repr

/-- Mutable state of a `SelfModificationSystem` instance: the in-memory
modification log and the set of backup directories on disk (identified by
their creation timestamps), plus the `maxBackups` cap. -/
structure SMState where
  modificationLog : List LogEntry
  backups : List Nat
  maxBackups : Nat
  deriving DecidableEq, Repr

/-- Environment of collaborator and filesystem outcomes consumed by one
`improve` cycle: the root-cause text returned by `determineRootCause`
(LLM answer or the heuristic fallback string), the change list returned by
`generateModifications` (parsed LLM output, or `[]` when the LLM is absent
or its output unparsable), per-file existence for `fs.existsSync`, and the
outcome of the `testModifications` syntax check. The textual transformation
done by `applyChange` is left abstract: its source (src/lib/self-modify.js
lines 243-251) is syntactically malformed JS, flagged as a copy-paste bug by
the spec, and no claim depends on the transformed file contents. -/
structure SMEnv where
  rootCause : String
  proposals : List Change
  fileExists : String → Bool
  testSuccess : Bool

/-- Analysis record built by `analyzeFailure` (src/lib/self-modify.js
lines 29-44). `suggestedChanges` is only populated when `canSelfModify`. -/
structure Analysis where
  failureType : String
  rootCause : String
  canSelfModify : Bool
  suggestedChanges : List Change
  deriving DecidableEq, Repr

/-- Embedding of `analyzeFailure` (src/lib/self-modify.js lines 29-44). -/
def analyzeFailure (env : SMEnv) (failure : Failure) : Analysis :=
  { failureType := categorizeFailure failure
    rootCause := env.rootCause
    canSelfModify := canSelfModify failure
    suggestedChanges := if canSelfModify failure then env.proposals else [] }

/-- Embedding of `cleanOldBackups` (src/lib/self-modify.js lines 154-165):
sort backup directories by name (their timestamps), newest first, and drop
everything beyond the `maxBackups` cap. -/
def cleanOldBackups (backups : List Nat) (maxBackups : Nat) : List Nat :=
  ((backups.mergeSort (· ≤ ·)).reverse).take maxBackups

/-- Embedding of `createBackup` (src/lib/self-modify.js lines 131-152):
create a timestamped backup directory, copy the key files into it (file
contents are not tracked by the model), then evict old backups. Returns the
new state and the backup directory's timestamp. -/
def createBackup (s : SMState) (now : Nat) : SMState × Nat :=
  ({ s with backups := cleanOldBackups (s.backups ++ [now]) s.maxBackups }, now)

/-- Embedding of the per-change loop body of `applyModifications`
(src/lib/self-modify.js lines 180-209): a missing target file yields a
per-change failure and the batch continues; a successful change appends a
record to the modification log. -/
def applyOneModification (env : SMEnv) (now : Nat) (acc : SMState × List ChangeResult)
    (mod : Change) : SMState × List ChangeResult :=
  let (s, results) := acc
  if !env.fileExists mod.file then
    (s, results ++ [{ file := mod.file, success := false, error := some "File not found" }])
  else
    ({ s with modificationLog :=
        s.modificationLog ++ [.changeApplied mod.file mod.change mod.reason now] },
     results ++ [{ file := mod.file, success := true, error := none }])

/-- Embedding of `applyModifications` (src/lib/self-modify.js lines 168-212):
with no modifications it returns immediately (JS returns `undefined`,
modelled as `[]`) and in particular creates no backup; otherwise it creates
a backup first, then applies each change in order. -/
def applyModifications (s : SMState) (env : SMEnv) (now : Nat)
    (modifications : List Change) : SMState × List ChangeResult :=
  if modifications.length == 0 then
    (s, [])
  else
    let s := (createBackup s now).1
    modifications.foldl (applyOneModification env now) (s, [])

/-- Embedding of `testModifications` (src/lib/self-modify.js lines 255-273):
a best-effort syntax check whose outcome is an environment fact. -/
def testModifications (env : SMEnv) : TestResult :=
  if env.testSuccess then { success := true, error := none }
  else { success := false, error := some "syntax check failed" }

/-- The improvement outcome record returned by `improve`: `reason` is only
present on the not-modifiable early return. -/
structure Outcome where
  improved : Bool
  reason : Option String
  deriving DecidableEq, Repr

/-- Embedding of `improve` (src/lib/self-modify.js lines 276-315): analyze,
stop with `{improved: false, reason: 'cannot_self_modify'}` when the failure
is not self-modifiable (before any backup or application), else apply the
suggested changes, test, and push an improvement record onto the log. -/
def improve (s : SMState) (env : SMEnv) (failure : Failure) (now : Nat) :
    SMState × Outcome :=
  let analysis := analyzeFailure env failure
  if !analysis.canSelfModify then
    (s, { improved := false, reason := some "cannot_self_modify" })
  else
    let (s1, _results) := applyModifications s env now analysis.suggestedChanges
    let t := testModifications env
    let s2 := { s1 with modificationLog := s1.modificationLog ++ [.improvementRecord failure now] }
    (s2, { improved := t.success, reason := none })

/-! ## Human feedback loop (src/lib/human-feedback.js)

UUIDs are modelled as natural numbers; the `uuidv4()` draw made inside
`queueForReview` is passed in as an explicit parameter (the value the RNG
produced), as is the `Date.now()` / `new Date().toISOString()` timestamp. -/

/-- Status of a feedback item (`status` field). -/
inductive FBStatus where
  | pending
  | approved
  | rejected
  deriving DecidableEq, Repr

/-- A feedback item as stored in the queue (src/lib/human-feedback.js
lines 75-85 for creation, lines 125-130 for the review fields). `itype`
models the JS `type` field; `corrections` is the reviewer-supplied list. -/
structure FBItem where
  id : Nat
  itype : String
  content : String
  confidence : Option ℚ
  status : FBStatus
  createdAt : Nat
  reviewedAt : Option Nat
  reviewer : Option String
  comments : Option String
  corrections : Option (List String)
  rating : Option Nat
  deriving DecidableEq, Repr

/-- The three per-status stores of a `HumanFeedbackLoop` instance
(`this.pending`, `this.approved`, `this.rejected`). -/
structure FeedbackState where
  pending : List FBItem
  approved : List FBItem
  rejected : List FBItem
  deriving DecidableEq, Repr

/-- Input to `queueForReview`: the caller-supplied item fields that the
claims refer to (the JS object is spread into the new feedback item). -/
structure ReviewInput where
  itype : String
  content : String
  confidence : Option ℚ
  deriving DecidableEq, Repr

/-- Embedding of `queueForReview` (src/lib/human-feedback.js lines 74-102):
always build a brand-new pending item around the fresh `uuidv4()` draw and
push it onto `this.pending`; there is no lookup of or merge with any
existing item. Returns the new state and the created item. -/
def queueForReview (s : FeedbackState) (uuid : Nat) (now : Nat)
    (input : ReviewInput) : FeedbackState × FBItem :=
  let feedbackItem : FBItem :=
    { id := uuid
      itype := input.itype
      content := input.content
      confidence := input.confidence
      status := .pending
      createdAt := now
      reviewedAt := none
      reviewer := none
      comments := none
      corrections := none
      rating := none }
  ({ s with pending := s.pending ++ [feedbackItem] }, feedbackItem)

/-- The review payload passed to `submitReview`. -/
structure Review where
  approved : Bool
  reviewer : Option String
  comments : Option String
  corrections : Option (List String)
  rating : Option Nat
  deriving DecidableEq, Repr

/-- Result of `submitReview`: JS `{success:false, error:'Item not found'}`
or `{success:true, item}`. -/
inductive SubmitResult where
  | notFound
  | ok (item : FBItem)
  deriving DecidableEq, Repr

/-- Embedding of `submitReview` (src/lib/human-feedback.js lines 117-160):
look the id up in `this.pending` only (`findIndex`), fail with the
not-found result when absent, else update the item's review fields, move it
from pending (`splice(index, 1)`) to the destination store, and report it. -/
def submitReview (s : FeedbackState) (id : Nat) (review : Review) (now : Nat) :
    FeedbackState × SubmitResult :=
  match s.pending.findIdx? (fun i => i.id == id) with
  | none => (s, .notFound)
  | some idx =>
    match s.pending[idx]? with
    | none => (s, .notFound)
    | some item =>
      let item :=
        { item with
            status := if review.approved then FBStatus.approved else FBStatus.rejected
            reviewedAt := some now
            reviewer := some (review.reviewer.getD "human")
            comments := review.comments
            corrections := review.corrections
            rating := review.rating }
      let pending := s.pending.eraseIdx idx
      if review.approved then
        ({ s with pending := pending, approved := s.approved ++ [item] }, .ok item)
      else
        ({ s with pending := pending, rejected := s.rejected ++ [item] }, .ok item)

/-- The `insights` record computed by `learnFromApproved`
(src/lib/human-feedback.js lines 209-215). Rates are rationals. -/
structure FBInsights where
  approvedCount : Nat
  rejectedCount : Nat
  approvalRate : ℚ
  avgRating : ℚ
  topCorrections : List String
  deriving DecidableEq, Repr

/-- Embedding of `learnFromApproved` (src/lib/human-feedback.js
lines 181-218). With an empty `approved` store the source executes
`return { patterns: [], insights };` (line 183), which reads the `const
insights` declared only at line 209 of the same function scope — a
temporal-dead-zone ReferenceError, modelled as a thrown error. Otherwise it
returns the insights record (the internal `patterns` presentation object,
not referenced by any claim, is not tracked). -/
def learnFromApproved (s : FeedbackState) : Except String FBInsights :=
  if s.approved.length == 0 then
    .error "ReferenceError: Cannot access 'insights' before initialization"
  else
    let corrections := (s.approved.filter (fun i => i.corrections != none)).flatMap
      (fun i => i.corrections.getD [])
    .ok
      { approvedCount := s.approved.length
        rejectedCount := s.rejected.length
        approvalRate := (s.approved.length : ℚ) / ((s.approved.length : ℚ) + (s.rejected.length : ℚ))
        avgRating := ((s.approved.map (fun i => i.rating.getD 3)).sum : ℚ) / (s.approved.length : ℚ)
        topCorrections := corrections.take 10 }

/-- Embedding of `autoQueue` (src/lib/human-feedback.js lines 226-245):
queue, via `queueForReview`, every input whose confidence is strictly below
the threshold. The per-call uuid draws and timestamps are supplied as a
parallel list consumed one pair per queued item. -/
def autoQueue (s : FeedbackState) (items : List ReviewInput) (threshold : ℚ)
    (draws : List (Nat × Nat)) : FeedbackState × List FBItem :=
  match items, draws with
  | [], _ => (s, [])
  | _ :: _, [] => (s, [])
  | item :: rest, (uuid, now) :: moreDraws =>
    if (match item.confidence with
        | some c => decide (c < threshold)
        | none => false) then
      let (s1, queued) := queueForReview s uuid now item
      let (s2, queuedRest) := autoQueue s1 rest threshold moreDraws
      (s2, queued :: queuedRest)
    else
      autoQueue s rest threshold ((uuid, now) :: moreDraws)

/-! ## Continuous learning loop / scheduler (src/unnamed/part_002)

Timestamps are milliseconds since the epoch. The JS `Date` mutation chain
in `calculateNextRun` is modelled by the setter functions below, each of
which keeps exactly the sub-fields its JS counterpart keeps. Where the
dynamic type of a JS value matters (a `Date` object versus the ISO string
produced by `toISOString`), values are wrapped in `JsVal`. -/

/-- Millisecond count of one hour. -/
def msPerHour : Nat := 3600000

/-- Millisecond count of one day. -/
def msPerDay : Nat := 86400000

/-- Start of the calendar day containing `t`. -/
def dayStart (t : Nat) : Nat := t - t % msPerDay

/-- Embedding of `Date.prototype.getHours` (hour of day, 0-23). -/
def getHours (t : Nat) : Nat := t / msPerHour % 24

/-- Embedding of `Date.prototype.getDay` (weekday 0-6; the epoch day is a
Thursday, weekday 4). -/
def getDay (t : Nat) : Nat := (t / msPerDay + 4) % 7

/-- Embedding of a one-argument `setHours(h)` call: replace the hour with
`h` (normalising an overflowing `h` into later days, as JS does), keeping
minutes, seconds and milliseconds. -/
def setHoursKeepMin (t h : Nat) : Nat := dayStart t + h * msPerHour + t % msPerHour

/-- Embedding of `setMinutes(0)`: zero the minutes, keeping seconds and
milliseconds. -/
def setMinutesZero (t : Nat) : Nat := t - t % msPerHour + t % 60000

/-- Embedding of `setSeconds(0)`: zero the seconds, keeping milliseconds. -/
def setSecondsZero (t : Nat) : Nat := t - t % 60000 + t % 1000

/-- Embedding of a four-argument `setHours(h, 0, 0, 0)` call: hour `h`
sharp on the day containing `t`. -/
def setHoursSharp (t h : Nat) : Nat := dayStart t + h * msPerHour

/-- A dynamically-typed JS value, to the precision the scheduler needs:
a `Date` object, a string (ISO timestamps are represented by the instant
they denote), or `null`. -/
inductive JsVal where
  | vdate (ms : Nat)
  | vstr (ms : Nat)
  | vnull
  deriving DecidableEq, Repr

/-- Embedding of a `.toISOString()` method call on a dynamically-typed
value: defined on `Date` objects only; on a string or `null` JS throws a
TypeError, which is what the scheduler's tick runs into (see
`checkAndRunTask`). -/
def callToISOString : JsVal → Except String Nat
  | .vdate ms => .ok ms
  | .vstr _ => .error "TypeError: toISOString is not a function"
  | .vnull => .error "TypeError: Cannot read properties of null (reading 'toISOString')"

/-- The `frequency` field of a scheduled task. -/
inductive Frequency where
  | hourly
  | daily
  | weekly
  | other
  deriving DecidableEq, Repr

/-- A scheduled task record (src/unnamed/part_002 lines 39-52). Optional
numeric fields model fields the caller may omit (JS `undefined`). `lastRun`
and `nextRun` hold the instants denoted by the stored ISO strings. -/
structure SchedTask where
  enabled : Bool
  frequency : Frequency
  interval : Option Nat
  dayOfWeek : Option Nat
  hour : Option Nat
  lastRun : Option Nat
  nextRun : Option Nat
  deriving DecidableEq, Repr

/-- Effective hourly interval: JS `task.interval || 1` (undefined and 0
both fall back to 1). -/
def effInterval (t : SchedTask) : Nat :=
  match t.interval with
  | some i => if i == 0 then 1 else i
  | none => 1

/-- Effective hour of day: JS `task.hour || 9` (undefined and 0 both fall
back to 9). -/
def effHour (t : SchedTask) : Nat :=
  match t.hour with
  | some h => if h == 0 then 9 else h
  | none => 9

/-- Weekly day distance: JS `(task.dayOfWeek - now.getDay() + 7) % 7 || 7`.
With `dayOfWeek` undefined the JS arithmetic yields NaN and `NaN % 7 || 7`
is 7; with a weekday `d`, `d - getDay(now) + 7` is the nonnegative quantity
`d + 7 - getDay(now)`, and a zero remainder falls back to 7. -/
def daysUntil (t : SchedTask) (now : Nat) : Nat :=
  match t.dayOfWeek with
  | none => 7
  | some d =>
    let r := (d + 7 - getDay now) % 7
    if r == 0 then 7 else r

/-- Embedding of `calculateNextRun` (src/unnamed/part_002 lines 64-91).
Note that the function returns `next?.toISOString() || null`: an ISO
STRING for the three known frequencies and `null` otherwise — never a
`Date` object. -/
def calculateNextRun (t : SchedTask) (now : Nat) : JsVal :=
  match t.frequency with
  | .hourly =>
    let next := setHoursKeepMin now (getHours now + effInterval t)
    let next := setMinutesZero next
    let next := setSecondsZero next
    .vstr next
  | .daily =>
    let next := now + msPerDay
    .vstr (setHoursSharp next (effHour t))
  | .weekly =>
    let next := now + daysUntil t now * msPerDay
    .vstr (setHoursSharp next (effHour t))
  | .other => .vnull

/-- Embedding of the body of the scheduler tick for one task
(src/unnamed/part_002 lines 160-185, inside `checkAndRunTasks`). `runOk`
is the outcome of the awaited `runTask` call. The `try` block's mutations
made before a throw survive into the `catch` handler, which sets the fixed
five-minute retry delay. On the success path the source executes
`task.nextRun = this.calculateNextRun(task).toISOString()`, calling
`toISOString` on the string `calculateNextRun` returns — `callToISOString`
reproduces the resulting TypeError. -/
def checkAndRunTask (task : SchedTask) (now : Nat) (runOk : Bool) : SchedTask :=
  if !task.enabled then task
  else if decide (task.nextRun.getD 0 ≤ now) then
    let afterTry : SchedTask × Option String :=
      if runOk then
        let t1 := { task with lastRun := some now }
        match callToISOString (calculateNextRun t1 now) with
        | .ok ms => ({ t1 with nextRun := some ms }, none)
        | .error e => (t1, some e)
      else
        (task, some "task failed")
    match afterTry with
    | (t2, none) => t2
    | (t2, some _) => { t2 with nextRun := some (now + 300000) }
  else task

/-- Embedding of `checkAndRunTasks` (src/unnamed/part_002 lines 155-189):
guard on `isRunning` and the presence of a session runner, then run every
enabled due task via `checkAndRunTask`; the outcome of each task's
execution is given by `runOk`. -/
def checkAndRunTasks (isRunning hasRunner : Bool) (tasks : List SchedTask)
    (now : Nat) (runOk : SchedTask → Bool) : List SchedTask :=
  if !isRunning || !hasRunner then tasks
  else tasks.map (fun t => checkAndRunTask t now (runOk t))

/-! ## Memory system (src/unnamed/part_003, the vector-enabled MemorySystem)

Knowledge entries live in `knowledge.json`; the store state is the entry
list. Entry ids (`Date.now().toString(36) + random`) are modelled as
naturals. Fields sourced from a spread of the caller's object may be
absent, hence the `Option` types (the source guards them with `?.`). -/

/-- A knowledge entry as persisted by `addKnowledge`. -/
structure KEntry where
  id : Nat
  topic : Option String
  content : Option String
  tags : Option (List String)
  verified : Bool
  deriving DecidableEq, Repr

/-- Embedding of `searchKnowledge` (src/unnamed/part_003, `MemorySystem`):
case-insensitive substring match of the query against topic, content or any
tag, with optional chaining (`entry.topic?.toLowerCase().includes(q)`)
treating an absent field as no match. Returns matches in store order. -/
def searchKnowledge (entries : List KEntry) (query : String) : List KEntry :=
  let q := jsToLower query
  entries.filter (fun entry =>
    (match entry.topic with
     | some t => jsIncludes (jsToLower t) q
     | none => false) ||
    (match entry.content with
     | some c => jsIncludes (jsToLower c) q
     | none => false) ||
    (match entry.tags with
     | some tags => tags.any (fun tag => jsIncludes (jsToLower tag) q)
     | none => false))

/-- Raw results returned by the vector backend's `search`: parallel id and
distance lists. -/
structure VecResults where
  ids : List Nat
  distances : List ℚ
  deriving DecidableEq, Repr

/-- Availability and outcome of the vector backend for one `semanticSearch`
call: `none` models `this.vectorMemory` being uninitialised, `some (.error
e)` a backend `search` call that throws, `some (.ok r)` a ranked answer. -/
def VecBackend := Option (Except String VecResults)

/-- One element of a `semanticSearch` result: the entry, plus the
`similarity` field the ranked path spreads in. The fallback path returns
the plain entries of `searchKnowledge`, which carry no `similarity` field —
modelled as `none`. -/
structure SSResult where
  entry : KEntry
  similarity : Option ℚ
  deriving DecidableEq, Repr

/-- Embedding of `semanticSearch` (src/unnamed/part_003, `MemorySystem`,
the block the spec describes as `similaritySearch`). Without a backend, and
likewise when the backend's search throws, it falls back to
`this.searchKnowledge(query).slice(0, nResults)` — plain entries, no
similarity score attached. On the ranked path it resolves ids against the
store, drops unresolved ids (`filter(Boolean)`), and attaches
`similarity: 1 - (results.distances[i] || 0)` by position in the compacted
list. -/
def semanticSearch (entries : List KEntry) (vm : VecBackend) (query : String)
    (nResults : Nat) : List SSResult :=
  match vm with
  | none =>
    ((searchKnowledge entries query).take nResults).map
      (fun e => { entry := e, similarity := none })
  | some (.error _) =>
    ((searchKnowledge entries query).take nResults).map
      (fun e => { entry := e, similarity := none })
  | some (.ok results) =>
    let matchedEntries :=
      (results.ids.map (fun id => entries.find? (fun e => e.id == id))).reduceOption
    (matchedEntries.enum).map (fun (i, e) =>
      { entry := e, similarity := some (1 - ((results.distances.get? i).getD 0)) })

/-! ## Session orchestrator (src/unnamed/part_000, `MagnitudeSelfImprover`)

Collaborator calls (research, verify, quality scoring, synthesis,
reflection) are awaited external operations; their outcomes for one run are
supplied in an environment record. An `Except.error` outcome models the
collaborator throwing. State mutated before a throw survives into the
enclosing catch handler, as in JS. -/

/-- The per-session metrics record `this.sessionMetrics`
(src/unnamed/part_000 lines 100-107). -/
structure Metrics where
  sessionName : String
  tasksCompleted : Nat
  tasksFailed : Nat
  researchTime : Nat
  verificationsPassed : Nat
  knowledgeGaps : List String
  deriving DecidableEq, Repr

/-- Fresh metrics at session start. -/
def initMetrics (sessionName : String) : Metrics :=
  { sessionName := sessionName
    tasksCompleted := 0
    tasksFailed := 0
    researchTime := 0
    verificationsPassed := 0
    knowledgeGaps := [] }

/-- Successful result of the research collaborator
(`researchAgent.research`): the stored entry's id and content. -/
structure ResearchOk where
  resultId : Nat
  content : String
  deriving DecidableEq, Repr

/-- Successful result of the verification collaborator
(`verificationAgent.verify`). -/
structure VerifyOk where
  passed : Bool
  deriving DecidableEq, Repr

/-- Collaborator outcomes for one task of the session loop, plus the
`uuidv4()` draw and timestamp consumed if the task's result is queued for
review. -/
structure TaskOutcome where
  research : Except String ResearchOk
  verify : Except String VerifyOk
  quality : Except String ℚ
  uuid : Nat
  time : Nat

/-- Embedding of `executeTask` (src/unnamed/part_000 lines 180-222):
research, then increment `tasksCompleted` IMMEDIATELY (before verification
and scoring), then verify, count a passed verification, score quality, and
queue a low-confidence result (score < 0.7) for human review. The third
component is `some e` when a collaborator threw `e` out of `executeTask`;
the metrics and feedback mutations made before the throw are kept. -/
def executeTask (m : Metrics) (fb : FeedbackState) (o : TaskOutcome) :
    Metrics × FeedbackState × Option String :=
  match o.research with
  | .error e => (m, fb, some e)
  | .ok researchResult =>
    let m := { m with tasksCompleted := m.tasksCompleted + 1 }
    match o.verify with
    | .error e => (m, fb, some e)
    | .ok verification =>
      let m := if verification.passed then
          { m with verificationsPassed := m.verificationsPassed + 1 }
        else m
      match o.quality with
      | .error e => (m, fb, some e)
      | .ok qualityScore =>
        if qualityScore < 7/10 then
          let (fb, _) := queueForReview fb o.uuid o.time
            { itype := "research"
              content := researchResult.content
              confidence := some qualityScore }
          (m, fb, none)
        else
          (m, fb, none)

/-- Environment of one orchestrated run: the generated task list's
collaborator outcomes in order, the outcome of the synthesis step
(`runSynthesis` — insight generation plus the per-topic synthesize calls,
none of which the source guards with try/catch), the outcome of the body of
`runReflection` (reflection plus the conditional self-modification call,
all inside its try block), and the session wall-clock duration. -/
structure SessionEnv where
  sessionName : String
  tasks : List TaskOutcome
  synthesisResult : Except String Unit
  reflectionResult : Except String Unit
  sessionTime : Nat

/-- One step of the session task loop (src/unnamed/part_000 lines 150-157):
`executeTask` inside try/catch; a thrown error increments `tasksFailed` and
the loop continues. -/
def sessionLoopStep (acc : Metrics × FeedbackState) (o : TaskOutcome) :
    Metrics × FeedbackState :=
  match executeTask acc.1 acc.2 o with
  | (m, fb, none) => (m, fb)
  | (m, fb, some _) => ({ m with tasksFailed := m.tasksFailed + 1 }, fb)

/-- Embedding of `runReflection` (src/unnamed/part_000 lines 240-270): the
whole body sits in a try/catch, so a throwing reflection (or
self-modification) step is reduced to a logged warning and never
propagates. Returns the log line, if any. -/
def runReflection (outcome : Except String Unit) : Option String :=
  match outcome with
  | .ok _ => none
  | .error e => some ("Reflection error: " ++ e)

/-- Result of a completed `runSession`: the knowledge store's session log
after `recordSession`, the final metrics, the feedback state, and the
console warnings produced by caught step errors. -/
structure RunResult where
  sessions : List Metrics
  metrics : Metrics
  feedback : FeedbackState
  log : List String

/-- Embedding of `runSession` (src/unnamed/part_000 lines 141-178): run the
task loop (per-task try/catch), then `runSynthesis` — whose errors are NOT
caught and propagate out of `runSession`, skipping everything after it —
then `runReflection` (errors caught), then set `researchTime` and append
the metrics to the memory system's session log exactly once
(`memory.recordSession`). -/
def runSession (env : SessionEnv) (sessions : List Metrics)
    (fb0 : FeedbackState) : Except String RunResult :=
  let (m, fb) := env.tasks.foldl sessionLoopStep (initMetrics env.sessionName, fb0)
  match env.synthesisResult with
  | .error e => .error e
  | .ok _ =>
    let reflectionWarning := runReflection env.reflectionResult
    let m := { m with researchTime := env.sessionTime }
    .ok
      { sessions := sessions ++ [m]
        metrics := m
        feedback := fb
        log := reflectionWarning.toList }

/-! ## Concrete instances used by the claim theorems and witnesses -/

/-- Observable for the uniqueness claims: every id present in any of the
three feedback stores. -/
def allFeedbackIds (s : FeedbackState) : List Nat :=
  (s.pending ++ s.approved ++ s.rejected).map (fun i => i.id)

/-- An enabled hourly task that is due (its stored next-run instant is the
epoch). -/
def hourlyDueTask : SchedTask :=
  { enabled := true, frequency := .hourly, interval := some 1, dayOfWeek := none,
    hour := none, lastRun := none, nextRun := some 0 }

/-- An hourly task used to witness the strict-future property. -/
def hourlyTaskC5 : SchedTask :=
  { enabled := true, frequency := .hourly, interval := some 2, dayOfWeek := none,
    hour := none, lastRun := none, nextRun := none }

/-- A pending feedback item with id 1. -/
def pendingItemC3 : FBItem :=
  { id := 1, itype := "research", content := "finding", confidence := some (1/2),
    status := .pending, createdAt := 0, reviewedAt := none, reviewer := none,
    comments := none, corrections := none, rating := none }

/-- A feedback state holding exactly one pending item. -/
def stateC3 : FeedbackState := { pending := [pendingItemC3], approved := [], rejected := [] }

/-- An approving review payload. -/
def approveC3 : Review :=
  { approved := true, reviewer := none, comments := some "ok", corrections := none,
    rating := some 5 }

/-- A rejecting review payload. -/
def rejectC3 : Review :=
  { approved := false, reviewer := none, comments := none, corrections := none,
    rating := some 1 }

/-- A reviewed-and-rejected item, for the zero-approved stores. -/
def rejectedItemC4 : FBItem :=
  { id := 7, itype := "research", content := "c", confidence := none,
    status := .rejected, createdAt := 0, reviewedAt := some 1, reviewer := some "human",
    comments := none, corrections := none, rating := some 1 }

/-- A reviewed-and-approved item with rating 4. -/
def approvedItemC4 : FBItem :=
  { id := 8, itype := "research", content := "c", confidence := none,
    status := .approved, createdAt := 0, reviewedAt := some 1, reviewer := some "human",
    comments := none, corrections := none, rating := some 4 }

/-- An empty feedback state. -/
def emptyFeedback : FeedbackState := { pending := [], approved := [], rejected := [] }

/-- An input item resubmitted twice in the uniqueness witness. -/
def inputC9 : ReviewInput :=
  { itype := "research", content := "same content", confidence := some (3/10) }

/-- A self-modification state with an existing log and backups. -/
def smStateC7 : SMState := { modificationLog := [], backups := [10, 20], maxBackups := 5 }

/-- An environment in which everything the modifiable path would need is
available: a nonempty proposal list, existing target files, a passing test. -/
def smEnvC7 : SMEnv :=
  { rootCause := "rc"
    proposals := [{ file := "index.js", change := "add error handling", reason := "r" }]
    fileExists := fun _ => true
    testSuccess := true }

/-- A knowledge entry matching the query "ai". -/
def entryC8 : KEntry :=
  { id := 1, topic := some "AI safety", content := some "notes", tags := some ["ai"],
    verified := false }

/-- A session environment whose synthesis step throws. -/
def envSynthFailC1 : SessionEnv :=
  { sessionName := "s", tasks := [], synthesisResult := .error "synthesis failure",
    reflectionResult := .ok (), sessionTime := 42 }

/-- A task whose collaborators all succeed. -/
def taskOutcomeC1 : TaskOutcome :=
  { research := .ok { resultId := 1, content := "c" }, verify := .ok { passed := true },
    quality := .ok 1, uuid := 5, time := 100 }

/-- A session environment whose reflection step throws but whose synthesis
succeeds. -/
def envReflectFailC1 : SessionEnv :=
  { sessionName := "s", tasks := [taskOutcomeC1], synthesisResult := .ok (),
    reflectionResult := .error "reflection boom", sessionTime := 42 }

/-- A session of one task whose research succeeds and whose verification
throws. -/
def envC10 : SessionEnv :=
  { sessionName := "s"
    tasks := [{ research := .ok { resultId := 1, content := "c" },
                verify := .error "verification failure", quality := .ok 1,
                uuid := 5, time := 100 }]
    synthesisResult := .ok ()
    reflectionResult := .ok ()
    sessionTime := 42 }

/-! ## Helper lemmas -/

/-- The effective hourly interval is at least one (JS `task.interval || 1`). -/
theorem effInterval_pos (t : SchedTask) : 1 ≤ effInterval t := by
  unfold effInterval
  cases hiv : t.interval with
  | none => simp
  | some i =>
    cases hz : i == 0 with
    | true => simp [hz]
    | false =>
      have : i ≠ 0 := by simpa using hz
      simp [hz]
      omega

/-- The weekly day distance is at least one: a zero remainder falls back
to 7. -/
theorem daysUntil_pos (t : SchedTask) (now : Nat) : 1 ≤ daysUntil t now := by
  unfold daysUntil
  cases hd : t.dayOfWeek with
  | none => simp
  | some d =>
    cases hz : (d + 7 - getDay now) % 7 == 0 with
    | true => simp [hz]
    | false =>
      have : (d + 7 - getDay now) % 7 ≠ 0 := by simpa using hz
      simp [hz]
      omega

/-- A list with an empty filter has no index satisfying the test. -/
theorem filter_len_zero_findIdx_none {α : Type} (p : α → Bool) :
    ∀ l : List α, (l.filter p).length = 0 → l.findIdx? p = none := by
  intro l
  induction l with
  | nil => intro _; rfl
  | cons x xs ih =>
    intro h
    cases hx : p x with
    | true => rw [List.filter_cons_of_pos hx] at h; simp at h
    | false =>
      rw [List.filter_cons_of_neg (by simp [hx])] at h
      simp [List.findIdx?_cons, hx, ih h]

/-- A list whose filter has exactly one element: the first matching index
exists, carries a matching element, and erasing it leaves no match. -/
theorem filter_len_one_findIdx {α : Type} (p : α → Bool) :
    ∀ l : List α, (l.filter p).length = 1 →
      ∃ idx item, l.findIdx? p = some idx ∧ l[idx]? = some item ∧ p item = true ∧
        ((l.eraseIdx idx).filter p).length = 0 := by
  intro l
  induction l with
  | nil => intro h; simp at h
  | cons x xs ih =>
    intro h
    cases hx : p x with
    | true =>
      refine ⟨0, x, by simp [List.findIdx?_cons, hx], by simp, hx, ?_⟩
      rw [List.filter_cons_of_pos hx] at h
      simpa [List.eraseIdx] using h
    | false =>
      have h2 : (xs.filter p).length = 1 := by
        rwa [List.filter_cons_of_neg (by simp [hx])] at h
      obtain ⟨idx, item, h1, hget, hp, herase⟩ := ih h2
      refine ⟨idx + 1, item, ?_, ?_, hp, ?_⟩
      · simp [List.findIdx?_cons, hx, h1]
      · simpa using hget
      · simpa [List.eraseIdx, List.filter_cons_of_neg (show ¬(p x = true) by simp [hx])]
          using herase

/-! ## Claim theorems -/

/-- C6: `canSelfModify(failure)` is true exactly when `categorizeFailure`
lands in the allow-list of timeout, syntax, import and browser errors;
categorization checks keywords in order over the lowercased error text with
timeout first, so any error text containing "timeout" is self-modifiable
and the text "unrecognized issue" is not. -/
theorem canSelfModify_allow_list :
    (∀ f : Failure,
        canSelfModify f = true ↔
          categorizeFailure f ∈ ["timeout", "syntax_error", "import_error", "browser_error"]) ∧
    (∀ (f : Failure) (e : String), f.error = some e →
        jsIncludes (jsToLower e) "timeout" = true → categorizeFailure f = "timeout") ∧
    (∀ (f : Failure) (e : String), f.error = some e →
        jsIncludes (jsToLower e) "timeout" = true → canSelfModify f = true) ∧
    canSelfModify { task := "t", error := some "unrecognized issue" } = false := by
  have hcat : ∀ (f : Failure) (e : String), f.error = some e →
      jsIncludes (jsToLower e) "timeout" = true → categorizeFailure f = "timeout" := by
    intro f e he h
    simp [categorizeFailure, he, h]
  refine ⟨fun f => ?_, hcat, fun f e he h => ?_, by decide⟩
  · simp [canSelfModify, List.contains, List.elem_iff]
  · simp [canSelfModify, hcat f e he h]

/-- C6 witness: a failure whose error text contains "timeout" (in mixed
case) is self-modifiable. -/
theorem canSelfModify_allow_list_witness :
    canSelfModify { task := "net", error := some "Connection TIMEOUT hit" } = true :=
  canSelfModify_allow_list.2.2.1 { task := "net", error := some "Connection TIMEOUT hit" }
    "Connection TIMEOUT hit" rfl (by decide)

/-- C7: on a failure that is not self-modifiable, `improve` stops right
after analysis: the system state is returned untouched (no backup is
created, nothing is applied, nothing is logged) with the outcome
`{improved: false, reason: 'cannot_self_modify'}`. -/
theorem improve_not_modifiable_no_effects (s : SMState) (env : SMEnv) (f : Failure)
    (now : Nat) (h : canSelfModify f = false) :
    improve s env f now = (s, { improved := false, reason := some "cannot_self_modify" }) := by
  simp [improve, analyzeFailure, h]

/-- C7 witness: a concrete non-modifiable failure leaves a state with
existing backups and an environment full of applicable proposals entirely
untouched. -/
theorem improve_not_modifiable_no_effects_witness :
    improve smStateC7 smEnvC7 { task := "session_tasks", error := some "unrecognized issue" } 99
      = (smStateC7, { improved := false, reason := some "cannot_self_modify" }) :=
  improve_not_modifiable_no_effects smStateC7 smEnvC7
    { task := "session_tasks", error := some "unrecognized issue" } 99 (by decide)

/-- C2 (code bug): on a tick where a due, enabled hourly task EXECUTES
SUCCESSFULLY, the stored next run is still `now + 300000` (the five-minute
retry delay) and not the value `calculateNextRun` computes: the source's
success branch calls `.toISOString()` on the ISO string `calculateNextRun`
already returned, and the resulting TypeError falls into the retry catch
after `lastRun` has been advanced. The second conjunct shows the recompute
the claim (and the spec) expects would have produced 7200000. -/
theorem tick_success_path_hits_retry_delay :
    checkAndRunTasks true true [hourlyDueTask] 3600000 (fun _ => true)
        = [{ hourlyDueTask with lastRun := some 3600000, nextRun := some 3900000 }] ∧
    calculateNextRun { hourlyDueTask with lastRun := some 3600000 } 3600000
        = JsVal.vstr 7200000 ∧
    3600000 + 300000 = 3900000 ∧ (3900000 : Nat) ≠ 7200000 :=
  ⟨rfl, rfl, rfl, by decide⟩

/-- C4 (code bug): with an empty `approved` store — both when nothing was
ever reviewed and when items were reviewed but all rejected —
`learnFromApproved` does not return a safe default: it throws a
ReferenceError, because its early return reads the `insights` constant
before its declaration. With at least one approved item the documented
rate and average hold (third conjunct: one approved at rating 4, one
rejected, rate 1/2). -/
theorem learnFromApproved_reference_error :
    learnFromApproved { pending := [], approved := [], rejected := [] }
        = .error "ReferenceError: Cannot access 'insights' before initialization" ∧
    learnFromApproved { pending := [], approved := [], rejected := [rejectedItemC4] }
        = .error "ReferenceError: Cannot access 'insights' before initialization" ∧
    (learnFromApproved { pending := [], approved := [approvedItemC4], rejected := [rejectedItemC4] }).toOption.map
        (fun i => (i.approvalRate, i.avgRating)) = some (1/2, 4) := by
  refine ⟨rfl, rfl, ?_⟩
  simp [learnFromApproved, approvedItemC4, rejectedItemC4]
  refine ⟨_, rfl, ?_, ?_⟩ <;> norm_num

/-- C5: for every task with a recognised frequency (hourly, daily or
weekly — the invalid-frequency branch returns null) and every reference
time, `calculateNextRun` produces an ISO timestamp strictly after `now`.
In particular the weekly branch, whose day distance is
`(dayOfWeek - getDay(now) + 7) % 7` with a zero result replaced by 7,
never re-triggers at the same moment. -/
theorem calculateNextRun_strictly_after_now (t : SchedTask) (now : Nat)
    (h : t.frequency ≠ Frequency.other) :
    ∃ ms, calculateNextRun t now = JsVal.vstr ms ∧ now < ms := by
  rcases t with ⟨en, freq, iv, dow, hr, lr, nr⟩
  cases freq with
  | other => exact absurd rfl h
  | hourly =>
    refine ⟨_, rfl, ?_⟩
    have hi : 1 ≤ effInterval (SchedTask.mk en Frequency.hourly iv dow hr lr nr) :=
      effInterval_pos _
    simp only [setSecondsZero, setMinutesZero, setHoursKeepMin, dayStart, getHours,
      msPerHour, msPerDay]
    omega
  | daily =>
    refine ⟨_, rfl, ?_⟩
    simp only [setHoursSharp, dayStart, msPerHour, msPerDay]
    omega
  | weekly =>
    refine ⟨_, rfl, ?_⟩
    have hd : 1 ≤ daysUntil (SchedTask.mk en Frequency.weekly iv dow hr lr nr) now :=
      daysUntil_pos _ _
    simp only [setHoursSharp, dayStart, msPerHour, msPerDay]
    omega

/-- C5 witness: a due hourly task evaluated at a concrete instant yields a
strictly later next run. -/
theorem calculateNextRun_strictly_after_now_witness :
    ∃ ms, calculateNextRun hourlyTaskC5 1000 = JsVal.vstr ms ∧ 1000 < ms :=
  calculateNextRun_strictly_after_now hourlyTaskC5 1000 (by decide)

/-- C3: an item that has transitioned out of pending cannot be reviewed
again: when the pending store holds exactly one item with the given id, the
first `submitReview` succeeds, and a second `submitReview` on the same id
returns the not-found failure — the same failure as for an unknown id —
and leaves the entire feedback state (in particular the reviewed item's
terminal fields in the approved or rejected store) unchanged. -/
theorem submitReview_second_call_not_found (s : FeedbackState) (id : Nat)
    (r1 r2 : Review) (t1 t2 : Nat)
    (h : (s.pending.filter (fun i => i.id == id)).length = 1) :
    (∃ item, (submitReview s id r1 t1).2 = SubmitResult.ok item) ∧
    submitReview (submitReview s id r1 t1).1 id r2 t2
      = ((submitReview s id r1 t1).1, SubmitResult.notFound) := by
  obtain ⟨idx, item, hfind, hget, _hp, herase⟩ := filter_len_one_findIdx _ _ h
  have hnone := filter_len_zero_findIdx_none (fun i : FBItem => i.id == id) _ herase
  cases hb : r1.approved <;>
    simp [submitReview, hfind, hget, hb, hnone]

/-- C3 witness: a concrete pending item is approved once; the second review
call on its id fails with the not-found result and changes nothing. -/
theorem submitReview_second_call_not_found_witness :
    (∃ item, (submitReview stateC3 1 approveC3 10).2 = SubmitResult.ok item) ∧
    submitReview (submitReview stateC3 1 approveC3 10).1 1 rejectC3 20
      = ((submitReview stateC3 1 approveC3 10).1, SubmitResult.notFound) :=
  submitReview_second_call_not_found stateC3 1 approveC3 rejectC3 10 20 (by decide)

/-- C9: `queueForReview` always creates a brand-new pending item carrying
the fresh uuid draw: when the draws are fresh (the property the source
delegates to `uuidv4`), the created item's id differs from every id in the
pending, approved and rejected stores, and resubmitting the very same
content creates a second, distinct item with a different id — nothing is
merged or deduplicated. -/
theorem queueForReview_fresh_distinct_ids (s : FeedbackState) (input : ReviewInput)
    (u1 t1 u2 t2 : Nat)
    (h1 : u1 ∉ allFeedbackIds s)
    (h2 : u2 ∉ allFeedbackIds (queueForReview s u1 t1 input).1) :
    ((queueForReview s u1 t1 input).2).id = u1 ∧
    ((queueForReview s u1 t1 input).2).id ∉ allFeedbackIds s ∧
    ((queueForReview (queueForReview s u1 t1 input).1 u2 t2 input).2).id
        ≠ ((queueForReview s u1 t1 input).2).id ∧
    (queueForReview (queueForReview s u1 t1 input).1 u2 t2 input).1.pending
        = s.pending ++ [(queueForReview s u1 t1 input).2,
                        (queueForReview (queueForReview s u1 t1 input).1 u2 t2 input).2] := by
  have hm : u1 ∈ allFeedbackIds (queueForReview s u1 t1 input).1 := by
    simp [allFeedbackIds, queueForReview]
  refine ⟨rfl, h1, ?_, ?_⟩
  · intro hEq
    have h3 : u2 = u1 := hEq
    exact h2 (h3 ▸ hm)
  · simp [queueForReview]

/-- C9 witness: two submissions of the same content into an empty store,
with distinct fresh uuids 1 and 2, produce two distinct pending items. -/
theorem queueForReview_fresh_distinct_ids_witness :
    ((queueForReview emptyFeedback 1 100 inputC9).2).id = 1 ∧
    ((queueForReview emptyFeedback 1 100 inputC9).2).id ∉ allFeedbackIds emptyFeedback ∧
    ((queueForReview (queueForReview emptyFeedback 1 100 inputC9).1 2 200 inputC9).2).id
        ≠ ((queueForReview emptyFeedback 1 100 inputC9).2).id ∧
    (queueForReview (queueForReview emptyFeedback 1 100 inputC9).1 2 200 inputC9).1.pending
        = emptyFeedback.pending ++ [(queueForReview emptyFeedback 1 100 inputC9).2,
            (queueForReview (queueForReview emptyFeedback 1 100 inputC9).1 2 200 inputC9).2] :=
  queueForReview_fresh_distinct_ids emptyFeedback inputC9 1 100 2 200 (by decide) (by decide)

/-- C8 counterexample: with the similarity backend unavailable,
`semanticSearch` returns the matching entry WITHOUT any similarity score
(no sentinel is attached), while the ranked path attaches one — so the
result shapes differ and a caller can observe that the fallback was taken,
refuting the claim that the fallback pairs every entry with a sentinel
score and is indistinguishable. -/
theorem semanticSearch_fallback_lacks_score :
    (semanticSearch [entryC8] none "ai" 5).map (fun r => r.similarity) = [none] ∧
    (semanticSearch [entryC8] (some (Except.ok { ids := [1], distances := [1/4] })) "ai" 5).map
        (fun r => r.similarity) = [some (3/4)] := by
  constructor
  · rfl
  · show [some ((1 : ℚ) - 1/4)] = [some (3/4)]
    norm_num

/-- C8 amended: when the similarity backend is unavailable — or its search
throws — `semanticSearch` falls back to the keyword search truncated to at
most `n` entries, but attaches no similarity score to them (the ranked
path does), so the caller can tell the fallback result apart by the
missing score. -/
theorem semanticSearch_fallback_shape (entries : List KEntry) (vm : VecBackend)
    (q : String) (n : Nat)
    (h : vm = none ∨ ∃ e, vm = some (Except.error e)) :
    semanticSearch entries vm q n
        = ((searchKnowledge entries q).take n).map (fun e => { entry := e, similarity := none }) ∧
    (semanticSearch entries vm q n).length ≤ n := by
  have hs : semanticSearch entries vm q n
      = ((searchKnowledge entries q).take n).map (fun e => { entry := e, similarity := none }) := by
    rcases h with h | ⟨e, h⟩ <;> subst h <;> rfl
  refine ⟨hs, ?_⟩
  rw [hs]
  simp only [List.length_map, List.length_take]
  exact Nat.min_le_left _ _

/-- C8 witness: the fallback shape at a concrete store with a throwing
backend. -/
theorem semanticSearch_fallback_shape_witness :
    semanticSearch [entryC8] (some (Except.error "backend down")) "ai" 3
        = ((searchKnowledge [entryC8] "ai").take 3).map (fun e => { entry := e, similarity := none }) ∧
    (semanticSearch [entryC8] (some (Except.error "backend down")) "ai" 3).length ≤ 3 :=
  semanticSearch_fallback_shape [entryC8] (some (Except.error "backend down")) "ai" 3
    (Or.inr ⟨"backend down", rfl⟩)

/-- C1 counterexample: when the synthesis step throws, `runSession`
propagates the error — the run aborts before `memory.recordSession`, so
the session metrics are NOT persisted, refuting the claim that synthesis
failures are caught and never abort metric persistence. (The source wraps
`runReflection` in try/catch but awaits `runSynthesis` bare.) -/
theorem runSession_synthesis_error_skips_recordSession :
    runSession envSynthFailC1 [] emptyFeedback = .error "synthesis failure" := rfl

/-- C1 amended: whenever the synthesis step succeeds, `runSession` appends
the session metrics to the session log exactly once, after the task loop,
synthesis and reflection — and this holds for EVERY reflection outcome, so
a reflection/self-modification failure is caught and never aborts metric
persistence; a synthesis failure, however, propagates and skips
persistence. -/
theorem runSession_records_metrics_once (env : SessionEnv) (sessions : List Metrics)
    (fb0 : FeedbackState) (h : env.synthesisResult = .ok ()) :
    ∃ r, runSession env sessions fb0 = .ok r ∧ r.sessions = sessions ++ [r.metrics] := by
  simp only [runSession, h]
  exact ⟨_, rfl, rfl⟩

/-- C1 witness: a session whose reflection step throws still records its
metrics exactly once. -/
theorem runSession_records_metrics_once_witness :
    ∃ r, runSession envReflectFailC1 [] emptyFeedback = .ok r ∧
      r.sessions = [] ++ [r.metrics] :=
  runSession_records_metrics_once envReflectFailC1 [] emptyFeedback rfl

/-- C10: `executeTask` increments `tasksCompleted` as soon as the research
step returns, before verification and scoring; a task whose research
succeeds but whose verification throws therefore leaves `executeTask` with
the completed counter already incremented and the error escaping to the
loop's catch, which also counts it failed — in the concrete one-task
session below the final metrics show `tasksCompleted = 1` AND
`tasksFailed = 1`, and their sum exceeds the number of tasks. -/
theorem executeTask_double_count :
    (∀ (m : Metrics) (fb : FeedbackState) (o : TaskOutcome) (r : ResearchOk) (e : String),
        o.research = .ok r → o.verify = .error e →
        executeTask m fb o = ({ m with tasksCompleted := m.tasksCompleted + 1 }, fb, some e)) ∧
    ((runSession envC10 [] emptyFeedback).toOption.map
        (fun r => (r.metrics.tasksCompleted, r.metrics.tasksFailed)) = some (1, 1) ∧
      envC10.tasks.length < 1 + 1) := by
  constructor
  · intro m fb o r e h1 h2
    simp [executeTask, h1, h2]
  · exact ⟨rfl, by decide⟩

/-- C10 witness: `executeTask` on a task whose research succeeds and whose
verification throws increments the completed counter and reports the
escaping error. -/
theorem executeTask_double_count_witness :
    executeTask (initMetrics "w") emptyFeedback
        { research := .ok { resultId := 2, content := "x" }, verify := .error "ve",
          quality := .ok 1, uuid := 3, time := 4 }
      = ({ initMetrics "w" with tasksCompleted := (initMetrics "w").tasksCompleted + 1 },
         emptyFeedback, some "ve") :=
  executeTask_double_count.1 (initMetrics "w") emptyFeedback
    { research := .ok { resultId := 2, content := "x" }, verify := .error "ve",
      quality := .ok 1, uuid := 3, time := 4 }
    { resultId := 2, content := "x" } "ve" rfl rfl

end Magnitude
